import Mathlib

/-!
# Verification of the `my-find` bounded-concurrency directory traversal

This file is a shallow embedding of `src/module4/my-find.c`: a find-like
command that walks a directory tree, matches file base names against a
glob pattern, and opportunistically offloads subdirectory traversal onto a
fixed pool of worker threads, falling back to inline recursion when the
pool is saturated.

Modelling conventions:
* The glob predicate (`fnmatch` with `FNM_PATHNAME`) is an external
  capability of the program; it is abstracted as a parameter
  `m : Matcher`.
* `stdout`/`stderr` writes are events (`Ev.out` / `Ev.err`), one event per
  printed line; `logIt` reproduces the level gating of the C function.
* The filesystem is a finite tree (`FS`); a directory node carries a
  `readable` flag (`false` models `opendir` failing) and its entries in
  enumeration order, exactly the view `opendir`/`readdir` gives the code.
* Machine integers: the thread capacity is a C `uint8_t`; where the code
  truncates (`(uint8_t)threadCapacity`) the model takes `% 256` explicitly.
* The concurrent traversal is modelled as a small-step interleaving
  machine (`step`/`run`) whose atomic steps match the program's
  mutex-protected critical sections; a schedule (list of scheduler
  choices) resolves the nondeterminism.
-/

namespace MyFind

/-- The glob-matching capability consumed from libc
(`fnmatch(pattern, name, FNM_PATHNAME) == 0`): `m pattern name`. -/
def Matcher : Type := String → String → Bool

-- ----------------------------------------------------------------------------
-- Logging (`LogLevel`, `logIt`)

/-- Log levels of the program, with their numeric values
(`TRACE = 0` … `OFF = 4`). -/
inductive LogLevel where
  | trace
  | verbose
  | normal
  | error
  | off
deriving DecidableEq, Repr

/-- The numeric value of a level, as in the C `enum`. -/
def LogLevel.toNat : LogLevel → Nat
  | .trace => 0
  | .verbose => 1
  | .normal => 2
  | .error => 3
  | .off => 4

/-- One emitted line of output: `out` is a line written to `stdout`,
`err` a line written to `stderr`. -/
inductive Ev where
  | out (line : String)
  | err (line : String)
deriving DecidableEq, Repr

/-- Embedding of `logIt`: output only happens when
`currentLevel >= systemLevel`; an `ERROR`-level message goes to `stderr`,
every other level goes to `stdout`. -/
def logIt (systemLevel currentLevel : LogLevel) (msg : String) : List Ev :=
  if systemLevel.toNat ≤ currentLevel.toNat then
    if currentLevel = .error then [Ev.err msg] else [Ev.out msg]
  else []

/-- The `stdout` lines of a trace. -/
def outLines (evs : List Ev) : List String :=
  evs.filterMap fun e => match e with | .out s => some s | .err _ => none

/-- The `stderr` lines of a trace. -/
def errLines (evs : List Ev) : List String :=
  evs.filterMap fun e => match e with | .out _ => none | .err s => some s

-- ----------------------------------------------------------------------------
-- User settings and file metadata (`Settings`, `FileInfo`)

/-- Embedding of `Settings`: pattern, recursion flag and system log level
(populated from the command line; defaults are `""`, `FALSE`, `NORMAL`). -/
structure Settings where
  pattern : String
  isRecursive : Bool
  systemLogLevel : LogLevel
deriving DecidableEq, Repr

/-- Embedding of `FileInfo`: full path and relative base name. -/
structure FileInfo where
  path : String
  name : String
deriving DecidableEq, Repr

-- ----------------------------------------------------------------------------
-- The match sink (`outputMatch`)

/-- Embedding of `outputMatch`: tests the base name against the pattern
with `fnmatch(…, FNM_PATHNAME)` (the abstract `m`); on a match prints the
full path at `NORMAL` level, otherwise prints a no-match diagnostic at
`TRACE` level. -/
def outputMatch (m : Matcher) (settings : Settings) (fileInfo : FileInfo) :
    List Ev :=
  if m settings.pattern fileInfo.name then
    logIt settings.systemLogLevel .normal fileInfo.path
  else
    logIt settings.systemLogLevel .trace
      ("No match for pattern " ++ settings.pattern ++
        " against file path " ++ fileInfo.path)

-- ----------------------------------------------------------------------------
-- Filesystem model

mutual
/-- One directory entry as `readdir` yields it: a regular file (`DT_REG`),
a symbolic link (`DT_LNK`), an entry of any other type, or a directory
(`DT_DIR`) carrying whether `opendir` on it succeeds and its own listing
in enumeration order. -/
inductive FS where
  | file (name : String) : FS
  | link (name : String) : FS
  | other (name : String) : FS
  | dir (name : String) (readable : Bool) (children : FSList) : FS

/-- A directory listing in enumeration order. -/
inductive FSList where
  | nil : FSList
  | cons (head : FS) (tail : FSList) : FSList
end

/-- Concatenation of two listings. -/
def FSList.app : FSList → FSList → FSList
  | .nil, ys => ys
  | .cons x xs, ys => .cons x (FSList.app xs ys)

mutual
/-- Every directory in this entry (itself included) can be opened. -/
def allReadable : FS → Bool
  | .file _ => true
  | .link _ => true
  | .other _ => true
  | .dir _ readable children => readable && allReadableL children
termination_by structural e => e
/-- Every directory in this listing can be opened. -/
def allReadableL : FSList → Bool
  | .nil => true
  | .cons e es => allReadable e && allReadableL es
termination_by structural es => es
end

-- ----------------------------------------------------------------------------
-- Sequential traversal: `visitDir` with a capacity-0 pool
--
-- With thread capacity 0 the pool's `availableThreadCount` is always 0, so
-- `startVisitThread` always takes its `VisitInCurrentThread` branch: it
-- logs two TRACE lines, unlocks, and calls `visitDir` inline, discarding
-- its result.  The functions below are `visitDir` with that branch of
-- `startVisitThread` substituted at its call site.  The `ec` argument
-- threads the local `exitCode` variable of `visitDir` (initially
-- `EXIT_SUCCESS = 0`), together with the in-loop
-- `if (exitCode != EXIT_SUCCESS) goto Finally;` check.

mutual
/-- The `while ((entry = readdir(dir)) != NULL)` loop of `visitDir`,
including the `exitCode != EXIT_SUCCESS` early-exit check after each
entry. -/
def visitList (m : Matcher) (s : Settings) (path : String)
    (es : FSList) (ec : Nat) : List Ev × Nat :=
  match es with
  | .nil => ([], ec)
  | .cons e rest =>
    let r := visitEntry m s path e ec
    if r.2 ≠ 0 then r
    else
      let r2 := visitList m s path rest r.2
      (r.1 ++ r2.1, r2.2)
termination_by structural es

/-- The `switch (entry->d_type)` body of `visitDir` for one entry.
Files and links invoke the match callback; directories (when recursion is
on and the entry is not `.` or `..`) go through `startVisitThread`, here
inlined to its capacity-0 branch: two TRACE logs, unlock, then an inline
`visitDir` call whose result is discarded — the body of that inner
`visitDir` call (VERBOSE header, open-or-error, entry loop) is unfolded
in place so that the recursion is structural. `exitCode` is never
assigned, so the returned status is the incoming `ec`. -/
def visitEntry (m : Matcher) (s : Settings) (path : String)
    (e : FS) (ec : Nat) : List Ev × Nat :=
  match e with
  | .file name =>
    let fname := path ++ "/" ++ name
    (logIt s.systemLogLevel .trace ("Got file entry " ++ fname) ++
      outputMatch m s ⟨fname, name⟩, ec)
  | .link name =>
    let fname := path ++ "/" ++ name
    (logIt s.systemLogLevel .trace ("Got file entry " ++ fname) ++
      outputMatch m s ⟨fname, name⟩, ec)
  | .other _ => ([], ec)
  | .dir name readable children =>
    if s.isRecursive && name ≠ "." && name ≠ ".." then
      let fname := path ++ "/" ++ name
      (logIt s.systemLogLevel .trace ("Got directory entry " ++ fname) ++
        logIt s.systemLogLevel .trace
          ("Calling startVisitThread for directory entry " ++ fname) ++
        logIt s.systemLogLevel .trace "Acquiring thread state mutex lock" ++
        logIt s.systemLogLevel .trace "Acquired thread state mutex lock" ++
        (logIt s.systemLogLevel .verbose ("visitDir -> directory: " ++ fname) ++
          (if readable then (visitList m s fname children 0).1
           else logIt s.systemLogLevel .error
             ("Could not access file or directory: " ++ fname))), ec)
    else ([], ec)
termination_by structural e
end

/-- Embedding of `visitDir` (capacity-0 pool): log the VERBOSE header;
if the directory can be opened iterate its entries (with `exitCode`
starting at `EXIT_SUCCESS`), otherwise log the ERROR diagnostic and fall
to `Finally`. Returns the emitted events and the returned status. -/
def visitDirSeq (m : Matcher) (s : Settings) (path : String)
    (readable : Bool) (children : FSList) : List Ev × Nat :=
  let hdr := logIt s.systemLogLevel .verbose ("visitDir -> directory: " ++ path)
  if readable then
    let r := visitList m s path children 0
    (hdr ++ r.1, r.2)
  else
    (hdr ++ logIt s.systemLogLevel .error
      ("Could not access file or directory: " ++ path), 0)

/-- The entry loop without the (unreachable) abort-on-error check:
each entry's events in order, statuses ignored.  Used to state that the
check never fires (claim C10). -/
def visitListNC (m : Matcher) (s : Settings) (path : String) :
    FSList → List Ev
  | .nil => []
  | .cons e rest =>
    (visitEntry m s path e 0).1 ++ visitListNC m s path rest

-- ----------------------------------------------------------------------------
-- Spec-side matches (for the refinement claim C1)

mutual
/-- Modelled from the spec's words (refinement reference for C1): the
full paths of the regular files and symbolic links under a directory
whose base name satisfies `matches(pattern, name)`, depth first in
enumeration order, recursing into subdirectories (excluding the `.` and
`..` pseudo-entries) exactly when recursion is enabled. -/
def specMatches (m : Matcher) (pattern : String) (recursive : Bool)
    (path : String) : FS → List String
  | .file name => if m pattern name then [path ++ "/" ++ name] else []
  | .link name => if m pattern name then [path ++ "/" ++ name] else []
  | .other _ => []
  | .dir name _ children =>
    if recursive && name ≠ "." && name ≠ ".." then
      specMatchesL m pattern recursive (path ++ "/" ++ name) children
    else []
termination_by structural e => e

/-- Spec-side matches of a whole listing, in enumeration order. -/
def specMatchesL (m : Matcher) (pattern : String) (recursive : Bool)
    (path : String) : FSList → List String
  | .nil => []
  | .cons e es =>
    specMatches m pattern recursive path e ++
      specMatchesL m pattern recursive path es
termination_by structural es => es
end

-- ----------------------------------------------------------------------------
-- The thread pool (`ThreadRef` array, `ThreadState`)

/-- `MAX_THREADS` of the program. -/
def MAX_THREADS : Nat := 255

/-- Embedding of one `ThreadRef` slot: the availability flag and the
`pthread_t` stored by the last `pthread_create` for this slot (modelled
as the worker's numeric identifier; `0` stands for the uninitialized
value before any thread was created for the slot). -/
structure Slot where
  isAvailable : Bool
  tid : Nat
deriving DecidableEq, Repr

/-- Embedding of the mutable part of `ThreadState`: the slot table
(`threadRefs[0 .. threadCapacity)`; cells past the capacity are never
touched by the program and are not modelled), the capacity, and the
available count.  The mutex is not a datum here: the machine's steps are
exactly the program's lock-protected critical sections, taken atomically. -/
structure Pool where
  threadCapacity : Nat
  slots : List Slot
  availableThreadCount : Nat
deriving DecidableEq, Repr

/-- The pool as `newThreadState` leaves it: every slot of the capacity
range `Free`, `availableThreadCount = threadCapacity`. -/
def mkPool (threadCapacity : Nat) : Pool :=
  ⟨threadCapacity, List.replicate threadCapacity ⟨true, 0⟩, threadCapacity⟩

/-- Embedding of `newThreadState`: asserts
`threadCapacity <= MAX_THREADS` (`none` models the `assertIt` abort) and
initializes the pool. Its argument is the already-truncated `uint8_t`. -/
def newThreadState (threadCapacity : Nat) : Option Pool :=
  if threadCapacity ≤ MAX_THREADS then some (mkPool threadCapacity) else none

/-- Embedding of the `-t` option handler in `main`: the parsed `int` is
asserted `> 0` (`none` models that abort), then passed to
`newThreadState` cast to `uint8_t` — i.e. truncated modulo `2^8`. -/
def setThreadCapacityOpt (requested : Int) : Option Pool :=
  if requested > 0 then newThreadState (requested.toNat % 256) else none

/-- Embedding of the exit-code logic of `main` once the option processing
succeeded: failure iff the pattern is empty, the root path does not
resolve, or the root is not a directory.  The return value of the
top-level `visitDir` call is discarded by `main` (line 612), so the
traversal's own outcome does not appear among the inputs. -/
def mainExitCode (patternProvided rootFound rootIsDir : Bool) : Nat :=
  if !patternProvided then 1
  else if !rootFound then 1
  else if !rootIsDir then 1
  else 0

/-- Index of the first `Free` slot in scan order; equals the list length
when every slot is `Busy` (the scan of `startVisitThread` ends with
`slot == threadCapacity`). -/
def findFreeSlot : List Slot → Nat
  | [] => 0
  | s :: rest => if s.isAvailable then 0 else findFreeSlot rest + 1

/-- Write slot `i` of the table (used with `isAvailable = FALSE` plus the
new thread id by the dispatcher). -/
def setSlot : List Slot → Nat → Slot → List Slot
  | [], _, _ => []
  | _ :: rest, 0, v => v :: rest
  | s :: rest, n + 1, v => s :: setSlot rest n v

/-- Mark slot `i` `Free` again (the release in `runVisitThread` only sets
`isAvailable = TRUE`; the stored thread id is left behind). -/
def freeSlot : List Slot → Nat → List Slot
  | [], _ => []
  | s :: rest, 0 => ⟨true, s.tid⟩ :: rest
  | s :: rest, n + 1 => s :: freeSlot rest n

/-- Number of `Free` slots. -/
def countFree (slots : List Slot) : Nat := slots.countP fun s => s.isAvailable

/-- Number of `Busy` slots. -/
def countBusy (slots : List Slot) : Nat := slots.countP fun s => !s.isAvailable

/-- Availability of slot `i` (`false` when out of range). -/
def slotAvail (slots : List Slot) (i : Nat) : Bool :=
  match slots.get? i with
  | some s => s.isAvailable
  | none => false

-- ----------------------------------------------------------------------------
-- Lock discipline (claim C9): the primitive operations of
-- `startVisitThread` and of the release sequence of `runVisitThread`,
-- in program order.

/-- The primitive operations relevant to the lock-discipline claim. -/
inductive PrimOp where
  | lockOp
  | unlockOp
  | scanMark (slot : Nat)
  | createWorker (slot : Nat)
  | incrementAvail
  | markFree (slot : Nat)
  | dirListing (path : String)
deriving DecidableEq, Repr

/-- The operations `startVisitThread` performs on a pool in state `p` for
a directory at `path`, in program order: lock; if a slot is available,
scan-and-mark it, `pthread_create` the worker, unlock; otherwise (no
available count, or the defensive scan-miss branch) unlock and run
`visitDir` — the directory-listing I/O — inline. -/
def startVisitThreadOps (p : Pool) (path : String) : List PrimOp :=
  if p.availableThreadCount > 0 then
    let s := findFreeSlot p.slots
    if s = p.threadCapacity then
      [.lockOp, .unlockOp, .dirListing path]
    else
      [.lockOp, .scanMark s, .createWorker s, .unlockOp]
  else
    [.lockOp, .unlockOp, .dirListing path]

/-- The release sequence of `runVisitThread`: lock, increment the
available count, mark the slot `Free`, unlock. -/
def releaseOps (slot : Nat) : List PrimOp :=
  [.lockOp, .incrementAvail, .markFree slot, .unlockOp]

/-- Annotate each operation with the lock depth at which it executes
(the mutex is recursive, hence a depth rather than a flag; `lockOp`
itself is annotated with the depth it moves to, `unlockOp` with the depth
it leaves). -/
def opsWithDepth : List PrimOp → Nat → List (PrimOp × Nat)
  | [], _ => []
  | .lockOp :: rest, d => (PrimOp.lockOp, d + 1) :: opsWithDepth rest (d + 1)
  | .unlockOp :: rest, d => (PrimOp.unlockOp, d) :: opsWithDepth rest (d - 1)
  | op :: rest, d => (op, d) :: opsWithDepth rest d

/-- `true` when no directory-listing I/O happens while the lock is held. -/
def noDirListingUnderLock (ops : List PrimOp) : Bool :=
  (opsWithDepth ops 0).all fun od =>
    match od.1 with
    | .dirListing _ => od.2 = 0
    | _ => true

/-- `true` when no worker creation happens while the lock is held. -/
def noCreateUnderLock (ops : List PrimOp) : Bool :=
  (opsWithDepth ops 0).all fun od =>
    match od.1 with
    | .createWorker _ => od.2 = 0
    | _ => true

/-- `true` when every worker creation happens while the lock is held. -/
def createOnlyUnderLock (ops : List PrimOp) : Bool :=
  (opsWithDepth ops 0).all fun od =>
    match od.1 with
    | .createWorker _ => od.2 ≠ 0
    | _ => true

-- ----------------------------------------------------------------------------
-- The concurrent traversal as a small-step interleaving machine
--
-- One atomic step is one of the program's indivisible units: processing
-- one `readdir` entry (including, for a subdirectory, the whole
-- lock-protected body of `startVisitThread` — the dispatch decision is
-- made under the mutex), opening a directory, a worker's lock-protected
-- release-and-exit, or one iteration of `main`'s join loop.  A schedule
-- (list of `Choice`s) picks which execution context moves; choices that
-- name a blocked or dead context leave the state unchanged, so every
-- list of choices denotes a (prefix of a) legal interleaving.

/-- Pending work of one execution context: `visit` is a `visitDir` call
about to run (`opendir` not yet issued); `scanning` is a `visitDir`
invocation in the middle of its `readdir` loop, with the entries not yet
processed. -/
inductive WItem where
  | visit (path : String) (readable : Bool) (children : FSList)
  | scanning (path : String) (rest : FSList)

/-- A live worker thread: its `pthread_t` (as a numeric id), the pool
slot bound to it, and its remaining work.  A worker whose work list is
empty is at the release-and-`pthread_exit` point of `runVisitThread`. -/
structure Worker where
  tid : Nat
  slot : Nat
  prog : List WItem

/-- Where the main thread stands: still inside the top-level `visitDir`
(`running`); at iteration `k` of the join loop (`scanSlot`); blocked in
`pthread_join` on the thread id it read from slot `k` (`waitFor`); or
past the join loop — `destroyThreadState` and `exit` have run and the
process is gone (`finished`). -/
inductive MainPhase where
  | running
  | scanSlot (k : Nat)
  | waitFor (k : Nat) (tid : Nat)
  | finished
deriving DecidableEq, Repr

/-- The whole program state: pool, live workers, the main thread's work
and phase, the output emitted so far, and the next fresh thread id. -/
structure State where
  pool : Pool
  workers : List Worker
  mainProg : List WItem
  mainPhase : MainPhase
  trace : List Ev
  nextTid : Nat

/-- A scheduler choice: let the main thread move, or worker `tid`. -/
inductive Choice where
  | mainC
  | workerC (tid : Nat)

/-- Result of one execution context processing its next work item. -/
structure ExecResult where
  pool : Pool
  spawned : Option Worker
  prog : List WItem
  events : List Ev
  nextTid : Nat

/-- Process one work item, in the context owning `restProg`.

`visit`: the head of `visitDir` — VERBOSE header, then `opendir`: on
success enter the `readdir` loop, on failure log the ERROR diagnostic and
return.

`scanning` with a `file`/`link`/`other` head: one loop iteration of the
entry `switch` (files and links call the match sink; other types are
ignored).

`scanning` with a `dir` head (recursion on, not `.`/`..`): one loop
iteration ending in the whole `startVisitThread` body under the mutex:
if `availableThreadCount > 0` and the scan finds a `Free` slot, mark it
`Busy` with the new thread id, decrement the count, and spawn a worker
whose entry point is `runVisitThread` (run the Walker on its own copy of
the context, then release) — the caller continues with its remaining
entries; otherwise push the subdirectory's `visitDir` in front of the
caller's own remaining work (inline traversal). -/
def execItem (m : Matcher) (s : Settings) (pool : Pool) (nextTid : Nat)
    (item : WItem) (restProg : List WItem) : ExecResult :=
  match item with
  | .visit path readable children =>
    let hdr := logIt s.systemLogLevel .verbose ("visitDir -> directory: " ++ path)
    if readable then
      ⟨pool, none, .scanning path children :: restProg, hdr, nextTid⟩
    else
      ⟨pool, none, restProg,
        hdr ++ logIt s.systemLogLevel .error
          ("Could not access file or directory: " ++ path), nextTid⟩
  | .scanning _ .nil => ⟨pool, none, restProg, [], nextTid⟩
  | .scanning path (.cons e es) =>
    match e with
    | .file name =>
      let fname := path ++ "/" ++ name
      ⟨pool, none, .scanning path es :: restProg,
        logIt s.systemLogLevel .trace ("Got file entry " ++ fname) ++
          outputMatch m s ⟨fname, name⟩, nextTid⟩
    | .link name =>
      let fname := path ++ "/" ++ name
      ⟨pool, none, .scanning path es :: restProg,
        logIt s.systemLogLevel .trace ("Got file entry " ++ fname) ++
          outputMatch m s ⟨fname, name⟩, nextTid⟩
    | .other _ => ⟨pool, none, .scanning path es :: restProg, [], nextTid⟩
    | .dir name readable children =>
      if s.isRecursive && name ≠ "." && name ≠ ".." then
        let fname := path ++ "/" ++ name
        let pre :=
          logIt s.systemLogLevel .trace ("Got directory entry " ++ fname) ++
          logIt s.systemLogLevel .trace
            ("Calling startVisitThread for directory entry " ++ fname) ++
          logIt s.systemLogLevel .trace "Acquiring thread state mutex lock" ++
          logIt s.systemLogLevel .trace "Acquired thread state mutex lock"
        if pool.availableThreadCount > 0 then
          let willLog := logIt s.systemLogLevel .verbose
            ("Will handle directory " ++ fname ++ " in another thread")
          let slot := findFreeSlot pool.slots
          if slot = pool.threadCapacity then
            -- defensive scan-miss branch: fall through to inline traversal
            ⟨pool, none, .visit fname readable children :: .scanning path es :: restProg,
              pre ++ willLog ++ logIt s.systemLogLevel .verbose
                ("Could not find available slot for thread expected to handle " ++ fname),
              nextTid⟩
          else
            let pool' : Pool :=
              ⟨pool.threadCapacity, setSlot pool.slots slot ⟨false, nextTid⟩,
                pool.availableThreadCount - 1⟩
            ⟨pool', some ⟨nextTid, slot, [.visit fname readable children]⟩,
              .scanning path es :: restProg,
              pre ++ willLog ++
                logIt s.systemLogLevel .trace
                  ("Found available slot #" ++ toString slot) ++
                logIt s.systemLogLevel .verbose
                  ("Started new thread for slot #" ++ toString slot ++
                    " (available thread count now at: " ++
                    toString (pool.availableThreadCount - 1) ++ ")") ++
                logIt s.systemLogLevel .verbose
                  ("Calling visitDir in thread (slot #" ++ toString slot ++ ")"),
              nextTid + 1⟩
        else
          ⟨pool, none, .visit fname readable children :: .scanning path es :: restProg,
            pre, nextTid⟩
      else ⟨pool, none, .scanning path es :: restProg, [], nextTid⟩

/-- Find the live worker with thread id `tid`. -/
def findWorker (ws : List Worker) (tid : Nat) : Option Worker :=
  ws.find? fun w => w.tid == tid

/-- Remove the live worker with thread id `tid`. -/
def removeWorker (ws : List Worker) (tid : Nat) : List Worker :=
  ws.filter fun w => w.tid ≠ tid

/-- Replace the program of the live worker with thread id `tid`. -/
def setWorkerProg (ws : List Worker) (tid : Nat) (prog : List WItem) :
    List Worker :=
  ws.map fun w => if w.tid = tid then ⟨w.tid, w.slot, prog⟩ else w

/-- The events of the release-and-exit sequence of `runVisitThread`. -/
def releaseEvents (s : Settings) (slot newCount : Nat) : List Ev :=
  logIt s.systemLogLevel .verbose
      ("visitDir completed by thread (slot #" ++ toString slot ++ ") - status: 0") ++
    logIt s.systemLogLevel .verbose
      ("Available thread count now at " ++ toString newCount) ++
    logIt s.systemLogLevel .trace
      ("Freeing up VisitContext for thread (slot #" ++ toString slot ++ ")")

/-- One machine step under scheduler choice `c`.  Once the main thread is
`finished` the process has exited and every remaining worker is dead, so
every further step is the identity. -/
def step (m : Matcher) (s : Settings) (st : State) (c : Choice) : State :=
  if st.mainPhase = .finished then st
  else
    match c with
    | .mainC =>
      match st.mainPhase, st.mainProg with
      | .running, [] =>
        -- the top-level `visitDir` has returned: enter the join loop
        { st with
            mainPhase := .scanSlot 0
            trace := st.trace ++ logIt s.systemLogLevel .verbose
              "Waiting on active threads to complete..." }
      | .running, item :: rest =>
        let r := execItem m s st.pool st.nextTid item rest
        { st with
            pool := r.pool
            workers := st.workers ++ r.spawned.toList
            mainProg := r.prog
            trace := st.trace ++ r.events
            nextTid := r.nextTid }
      | .scanSlot k, _ =>
        if k < st.pool.threadCapacity then
          let chk := logIt s.systemLogLevel .trace
            ("Checking if thread for slot #" ++ toString k ++
              " is active and should be joined")
          match (st.pool.slots.get? k) with
          | some slot =>
            if slot.isAvailable then
              { st with
                  mainPhase := .scanSlot (k + 1)
                  trace := st.trace ++ chk }
            else
              { st with
                  mainPhase := .waitFor k slot.tid
                  trace := st.trace ++ chk ++ logIt s.systemLogLevel .trace
                    ("Joining thread for slot #" ++ toString k) }
          | none =>
            { st with
                mainPhase := .scanSlot (k + 1)
                trace := st.trace ++ chk }
        else
          -- join loop over: log, destroyThreadState, exit(exitCode)
          { st with
              mainPhase := .finished
              trace := st.trace ++ logIt s.systemLogLevel .verbose
                "All active threads done" }
      | .waitFor k tid, _ =>
        -- `pthread_join` returns only once that thread has exited
        if (findWorker st.workers tid).isSome then st
        else { st with mainPhase := .scanSlot (k + 1) }
      | .finished, _ => st
    | .workerC tid =>
      match findWorker st.workers tid with
      | none => st
      | some w =>
        match w.prog with
        | [] =>
          -- release the slot (under the mutex) and `pthread_exit`
          let newCount := st.pool.availableThreadCount + 1
          { st with
              pool := ⟨st.pool.threadCapacity, freeSlot st.pool.slots w.slot, newCount⟩
              workers := removeWorker st.workers tid
              trace := st.trace ++ releaseEvents s w.slot newCount }
        | item :: rest =>
          let r := execItem m s st.pool st.nextTid item rest
          { st with
              pool := r.pool
              workers := setWorkerProg st.workers tid r.prog ++ r.spawned.toList
              trace := st.trace ++ r.events
              nextTid := r.nextTid }

/-- Run the machine under a schedule. -/
def run (m : Matcher) (s : Settings) (st : State) (sched : List Choice) : State :=
  sched.foldl (step m s) st

/-- The state in which `main` starts the traversal of a root directory:
fresh pool of the given capacity, no workers, the top-level `visitDir`
call pending on the main thread. -/
def initState (capacity : Nat) (rootPath : String) (rootReadable : Bool)
    (rootChildren : FSList) : State :=
  ⟨mkPool capacity, [], [.visit rootPath rootReadable rootChildren],
    .running, [], 1⟩

-- ============================================================================
-- Lemmas

-- ----------------------------------------------------------------------------
-- Output gating at the default (`NORMAL`) level

theorem logIt_normal_trace (msg : String) : logIt .normal .trace msg = [] := rfl

theorem logIt_normal_verbose (msg : String) : logIt .normal .verbose msg = [] := rfl

theorem logIt_normal_normal (msg : String) :
    logIt .normal .normal msg = [Ev.out msg] := rfl

theorem logIt_normal_error (msg : String) :
    logIt .normal .error msg = [Ev.err msg] := rfl

theorem outLines_nil : outLines [] = [] := rfl

theorem outLines_append (a b : List Ev) :
    outLines (a ++ b) = outLines a ++ outLines b :=
  List.filterMap_append a b _

theorem outLines_out (msg : String) : outLines [Ev.out msg] = [msg] := rfl

theorem outLines_err (msg : String) : outLines [Ev.err msg] = [] := rfl

-- ----------------------------------------------------------------------------
-- The Walker never reports an error status (`exitCode` is never assigned)

theorem visitEntry_status (m : Matcher) (s : Settings) (path : String)
    (e : FS) (ec : Nat) : (visitEntry m s path e ec).2 = ec := by
  cases e with
  | file name => rfl
  | link name => rfl
  | other name => rfl
  | dir name readable children =>
    simp only [visitEntry]
    split <;> rfl

theorem visitList_status (m : Matcher) (s : Settings) (path : String) :
    ∀ (es : FSList) (ec : Nat), (visitList m s path es ec).2 = ec
  | .nil, _ => rfl
  | .cons e rest, ec => by
    have he := visitEntry_status m s path e ec
    simp only [visitList]
    split
    · exact he
    · simp only [he, visitList_status m s path rest ec]

theorem visitList_eq_noCheck (m : Matcher) (s : Settings) (path : String) :
    ∀ es : FSList, visitList m s path es 0 = (visitListNC m s path es, 0)
  | .nil => rfl
  | .cons e rest => by
    have he := visitEntry_status m s path e 0
    have hr := visitList_eq_noCheck m s path rest
    simp only [visitList, visitListNC, he, ne_eq, not_true_eq_false,
      if_false, ite_false]
    simp [he, hr]

theorem visitListNC_app (m : Matcher) (s : Settings) (path : String) :
    ∀ xs ys : FSList,
      visitListNC m s path (FSList.app xs ys) =
        visitListNC m s path xs ++ visitListNC m s path ys
  | .nil, ys => rfl
  | .cons e rest, ys => by
    simp only [FSList.app, visitListNC, visitListNC_app m s path rest ys,
      List.append_assoc]

-- ----------------------------------------------------------------------------
-- At level `NORMAL`, the stdout lines of the sequential traversal are
-- exactly the spec-side matches (in the same order)

mutual
theorem visitEntry_matches (m : Matcher) (s : Settings)
    (h : s.systemLogLevel = .normal) (path : String) (e : FS) (ec : Nat)
    (hr : allReadable e = true) :
    outLines (visitEntry m s path e ec).1 =
      specMatches m s.pattern s.isRecursive path e := by
  cases e with
  | file name =>
    simp only [visitEntry, specMatches, outputMatch, h,
      logIt_normal_trace, logIt_normal_normal, List.nil_append]
    split
    · simp [outLines_append, outLines_out]
    · simp [logIt_normal_trace, outLines_nil]
  | link name =>
    simp only [visitEntry, specMatches, outputMatch, h,
      logIt_normal_trace, logIt_normal_normal, List.nil_append]
    split
    · simp [outLines_append, outLines_out]
    · simp [logIt_normal_trace, outLines_nil]
  | other name => simp [visitEntry, specMatches, outLines_nil]
  | dir name readable children =>
    simp only [visitEntry, specMatches]
    split
    · simp only [allReadable, Bool.and_eq_true] at hr
      simp only [h, logIt_normal_trace, logIt_normal_verbose, List.nil_append,
        hr.1, if_true, ite_true]
      exact visitList_matches m s h (path ++ "/" ++ name) children hr.2
    · simp [outLines_nil]
termination_by structural e

theorem visitList_matches (m : Matcher) (s : Settings)
    (h : s.systemLogLevel = .normal) (path : String) (es : FSList)
    (hr : allReadableL es = true) :
    outLines (visitList m s path es 0).1 =
      specMatchesL m s.pattern s.isRecursive path es := by
  cases es with
  | nil => simp [visitList, specMatchesL, outLines_nil]
  | cons e rest =>
    simp only [allReadableL, Bool.and_eq_true] at hr
    have he := visitEntry_status m s path e 0
    simp only [visitList, specMatchesL, he, ne_eq, not_true_eq_false,
      if_false, ite_false]
    simp only [he, outLines_append]
    rw [visitEntry_matches m s h path e 0 hr.1,
      visitList_matches m s h path rest hr.2]
termination_by structural es
end

-- ============================================================================
-- Claims

/-- Shared concrete matcher used by witnesses and counterexamples: literal
name equality (a degenerate but legitimate instance of the abstract glob
capability). -/
def mEq : Matcher := fun p n => p == n

/-- **C1.** For pool capacity 0 (fully inline traversal), at the default
`NORMAL` verbosity and with every directory of the tree readable, the
stdout lines of the traversal are exactly the regular files and symbolic
links under the root whose base name satisfies `matches(pattern, name)`
(recursively exactly when recursion is enabled), in depth-first,
per-directory-enumeration order — `specMatchesL` is the spec-side
description of that set and order. -/
theorem C1_inline_traversal_emits_spec_matches (m : Matcher) (s : Settings)
    (path : String) (children : FSList) (h : s.systemLogLevel = .normal)
    (hr : allReadableL children = true) :
    outLines (visitDirSeq m s path true children).1 =
      specMatchesL m s.pattern s.isRecursive path children := by
  simp only [visitDirSeq, h, logIt_normal_verbose, List.nil_append, if_true,
    ite_true]
  exact visitList_matches m s h path children hr

/-- Witness for C1 at a concrete tree: pattern `c.txt`, recursion on,
root listing `[a.log, sub/[c.txt]]`. -/
theorem C1_witness :
    (Settings.mk "c.txt" true .normal).systemLogLevel = LogLevel.normal ∧
    allReadableL (.cons (.file "a.log")
      (.cons (.dir "sub" true (.cons (.file "c.txt") .nil)) .nil)) = true ∧
    outLines (visitDirSeq mEq (Settings.mk "c.txt" true .normal) "root" true
        (.cons (.file "a.log")
          (.cons (.dir "sub" true (.cons (.file "c.txt") .nil)) .nil))).1 =
      specMatchesL mEq "c.txt" true "root"
        (.cons (.file "a.log")
          (.cons (.dir "sub" true (.cons (.file "c.txt") .nil)) .nil)) :=
  ⟨rfl, by decide,
    C1_inline_traversal_emits_spec_matches mEq (Settings.mk "c.txt" true .normal)
      "root" _ rfl (by decide)⟩

/-- **C7 counterexample.** The claim says a matching file's path is
written to stdout regardless of the configured verbosity level; but at
level `OFF` (and likewise `ERROR`) `outputMatch` emits nothing even for a
match, because the path is printed through `logIt(..., NORMAL, ...)`. -/
theorem C7_counterexample :
    mEq (Settings.mk "a.txt" false .off).pattern "a.txt" = true ∧
    outputMatch mEq (Settings.mk "a.txt" false .off)
      (FileInfo.mk "root/a.txt" "a.txt") = [] :=
  ⟨rfl, rfl⟩

/-- **C7 (amended).** For every file entry the base name is tested
against the configured pattern; on a match the full path is written as
one stdout line exactly when the configured level is at most `NORMAL`
(so `ERROR` and `OFF` suppress match output); a non-match emits nothing
except at level `TRACE`, where the no-match diagnostic goes to stdout
(not the error stream); `ERROR`-level diagnostics go to the error stream
exactly when the level is not `OFF`. -/
theorem C7_amended_match_sink_gating (m : Matcher) (s : Settings)
    (fi : FileInfo) :
    outputMatch m s fi =
      (if m s.pattern fi.name then
        (if s.systemLogLevel.toNat ≤ LogLevel.normal.toNat then
          [Ev.out fi.path] else [])
      else
        (if s.systemLogLevel.toNat ≤ LogLevel.trace.toNat then
          [Ev.out ("No match for pattern " ++ s.pattern ++
            " against file path " ++ fi.path)] else [])) ∧
    (∀ (sys : LogLevel) (msg : String),
      logIt sys .error msg =
        if sys.toNat ≤ LogLevel.error.toNat then [Ev.err msg] else []) := by
  constructor
  · simp only [outputMatch, logIt]
    split <;> split <;> simp
  · intro sys msg
    simp only [logIt]
    split <;> simp

/-- **C8.** A directory below the root that cannot be opened is a local,
non-fatal failure (at the default `NORMAL` level, recursion on): the
Walker emits exactly the ERROR diagnostic for it on stderr and returns
status `EXIT_SUCCESS`; that subtree contributes zero stdout lines (zero
matches); the siblings before and after it are processed exactly as they
would be on their own; and `main`'s exit code (which discards the
traversal's status) is still `Success`. -/
theorem C8_unreadable_dir_is_local (m : Matcher) (s : Settings)
    (path name : String) (children : FSList) (pre post : FSList)
    (h : s.systemLogLevel = .normal) (hrec : s.isRecursive = true)
    (h1 : name ≠ ".") (h2 : name ≠ "..") :
    (visitDirSeq m s (path ++ "/" ++ name) false children).1 =
        [Ev.err ("Could not access file or directory: " ++
          (path ++ "/" ++ name))] ∧
    (visitDirSeq m s (path ++ "/" ++ name) false children).2 = 0 ∧
    outLines (visitDirSeq m s (path ++ "/" ++ name) false children).1 = [] ∧
    (visitList m s path
        (FSList.app pre (.cons (.dir name false children) post)) 0).1 =
      (visitList m s path pre 0).1 ++
        [Ev.err ("Could not access file or directory: " ++
          (path ++ "/" ++ name))] ++
        (visitList m s path post 0).1 ∧
    mainExitCode true true true = 0 := by
  refine ⟨?_, rfl, ?_, ?_, rfl⟩
  · simp [visitDirSeq, h, logIt_normal_verbose, logIt_normal_error]
  · simp [visitDirSeq, h, logIt_normal_verbose, logIt_normal_error, outLines,
      List.filterMap]
  · have hmid : (visitEntry m s path (.dir name false children) 0).1 =
        [Ev.err ("Could not access file or directory: " ++
          (path ++ "/" ++ name))] := by
      simp [visitEntry, h, hrec, h1, h2, logIt_normal_trace,
        logIt_normal_verbose, logIt_normal_error]
    simp only [visitList_eq_noCheck, visitListNC_app, visitListNC, hmid]
    simp [List.append_assoc]

/-- Witness for C8 at a concrete input: root listing
`[a.txt, sub(unreadable), b.txt]`, pattern `a.txt`, recursion on. -/
theorem C8_witness :
    ((Settings.mk "a.txt" true .normal).systemLogLevel = LogLevel.normal ∧
      (Settings.mk "a.txt" true .normal).isRecursive = true ∧
      "sub" ≠ "." ∧ "sub" ≠ "..") ∧
    ((visitDirSeq mEq (Settings.mk "a.txt" true .normal) ("root" ++ "/" ++ "sub")
        false (.cons (.file "hidden.txt") .nil)).1 =
        [Ev.err ("Could not access file or directory: " ++
          ("root" ++ "/" ++ "sub"))] ∧
      (visitDirSeq mEq (Settings.mk "a.txt" true .normal) ("root" ++ "/" ++ "sub")
        false (.cons (.file "hidden.txt") .nil)).2 = 0 ∧
      outLines (visitDirSeq mEq (Settings.mk "a.txt" true .normal)
        ("root" ++ "/" ++ "sub") false (.cons (.file "hidden.txt") .nil)).1 = [] ∧
      (visitList mEq (Settings.mk "a.txt" true .normal) "root"
          (FSList.app (.cons (.file "a.txt") .nil)
            (.cons (.dir "sub" false (.cons (.file "hidden.txt") .nil))
              (.cons (.file "b.txt") .nil))) 0).1 =
        (visitList mEq (Settings.mk "a.txt" true .normal) "root"
          (.cons (.file "a.txt") .nil) 0).1 ++
          [Ev.err ("Could not access file or directory: " ++
            ("root" ++ "/" ++ "sub"))] ++
          (visitList mEq (Settings.mk "a.txt" true .normal) "root"
            (.cons (.file "b.txt") .nil) 0).1 ∧
      mainExitCode true true true = 0) :=
  ⟨⟨rfl, rfl, by decide, by decide⟩,
    C8_unreadable_dir_is_local mEq (Settings.mk "a.txt" true .normal) "root"
      "sub" (.cons (.file "hidden.txt") .nil) (.cons (.file "a.txt") .nil)
      (.cons (.file "b.txt") .nil) rfl rfl (by decide) (by decide)⟩

/-- **C10.** The Walker's returned status is constant `EXIT_SUCCESS`:
`visitDir` returns `0` for every input (readable or not), the entry
loop's status is invariantly its initial value (the local `exitCode` is
never assigned), and consequently the in-loop
`exitCode != EXIT_SUCCESS` abort check never fires — the loop's output
equals that of the check-free loop `visitListNC`. -/
theorem C10_walker_status_constant (m : Matcher) (s : Settings)
    (path : String) (readable : Bool) (children es : FSList) (ec : Nat) :
    (visitDirSeq m s path readable children).2 = 0 ∧
    (visitList m s path es ec).2 = ec ∧
    (visitList m s path es 0).1 = visitListNC m s path es := by
  refine ⟨?_, visitList_status m s path es ec, ?_⟩
  · simp only [visitDirSeq]
    split
    · simp [visitList_status]
    · rfl
  · simp [visitList_eq_noCheck]

/-- **C6 (code bug).** The `-t` handler never rejects an over-bound
capacity: the only way it fails is a non-positive request, because the
parsed `int` is truncated to `uint8_t` *before* `newThreadState`'s
`<= MAX_THREADS` assertion, which is therefore vacuous.  In particular a
requested capacity of `256` (which exceeds `MAX_THREADS = 255`) is
silently turned into a working pool of capacity `0` — the traversal
proceeds (fully inline) instead of failing with an invalid-capacity
diagnostic. -/
theorem C6_overcapacity_silently_truncated :
    (∀ requested : Int,
      setThreadCapacityOpt requested = none ↔ requested ≤ 0) ∧
    setThreadCapacityOpt 256 = some (mkPool 0) := by
  constructor
  · intro r
    have hm : r.toNat % 256 ≤ 255 :=
      Nat.lt_succ_iff.mp (Nat.mod_lt _ (by norm_num))
    simp only [setThreadCapacityOpt, newThreadState, MAX_THREADS]
    split <;> simp <;> omega
  · rfl

/-- **C9 counterexample.** The claim says the lock is never held across
worker creation; but in the acquire branch `startVisitThread` calls
`pthread_create` between the lock and the unlock: for a fresh pool of
capacity 1 the operation sequence is
`lock, scanMark 0, createWorker 0, unlock`, and the `createWorker`
operation executes at lock depth 1. -/
theorem C9_counterexample :
    noCreateUnderLock (startVisitThreadOps (mkPool 1) "root/sub") = false := by
  decide

/-- **C9 (amended).** The pool lock is held only for the scan-and-mark
step *together with the worker creation it encloses* (acquire), or the
mark-and-increment step (release); it is never held across
directory-listing I/O: in every branch of the dispatcher the inline
`visitDir` call happens only after the unlock, and every worker creation
happens while the lock is held. -/
theorem C9_amended_lock_discipline (p : Pool) (path : String) (slot : Nat) :
    noDirListingUnderLock (startVisitThreadOps p path) = true ∧
    createOnlyUnderLock (startVisitThreadOps p path) = true ∧
    noDirListingUnderLock (releaseOps slot) = true ∧
    noCreateUnderLock (releaseOps slot) = true := by
  refine ⟨?_, ?_, ?_, ?_⟩
  · simp only [startVisitThreadOps]
    split
    · split <;> simp [noDirListingUnderLock, opsWithDepth]
    · simp [noDirListingUnderLock, opsWithDepth]
  · simp only [startVisitThreadOps]
    split
    · split <;> simp [createOnlyUnderLock, opsWithDepth]
    · simp [createOnlyUnderLock, opsWithDepth]
  · simp [releaseOps, noDirListingUnderLock, opsWithDepth]
  · simp [releaseOps, noCreateUnderLock, opsWithDepth]

-- ----------------------------------------------------------------------------
-- Slot-table lemmas

theorem length_setSlot : ∀ (l : List Slot) (i : Nat) (v : Slot),
    (setSlot l i v).length = l.length
  | [], _, _ => rfl
  | _ :: rest, 0, v => rfl
  | s :: rest, n + 1, v => by simp [setSlot, length_setSlot rest n v]

theorem length_freeSlot : ∀ (l : List Slot) (i : Nat),
    (freeSlot l i).length = l.length
  | [], _ => rfl
  | s :: rest, 0 => rfl
  | s :: rest, n + 1 => by simp [freeSlot, length_freeSlot rest n]

theorem slotAvail_setSlot_self : ∀ (l : List Slot) (i : Nat) (v : Slot),
    i < l.length → slotAvail (setSlot l i v) i = v.isAvailable
  | [], i, v, h => by simp at h
  | s :: rest, 0, v, _ => rfl
  | s :: rest, n + 1, v, h => by
    simpa [setSlot, slotAvail] using
      slotAvail_setSlot_self rest n v (Nat.lt_of_succ_lt_succ h)

theorem slotAvail_setSlot_ne : ∀ (l : List Slot) (i j : Nat) (v : Slot),
    j ≠ i → slotAvail (setSlot l i v) j = slotAvail l j
  | [], _, _, _, _ => rfl
  | s :: rest, 0, 0, v, h => absurd rfl h
  | s :: rest, 0, j + 1, v, _ => rfl
  | s :: rest, i + 1, 0, v, _ => rfl
  | s :: rest, i + 1, j + 1, v, h => by
    simpa [setSlot, slotAvail] using
      slotAvail_setSlot_ne rest i j v (fun hc => h (by omega))

theorem slotAvail_freeSlot_self : ∀ (l : List Slot) (i : Nat),
    i < l.length → slotAvail (freeSlot l i) i = true
  | [], i, h => by simp at h
  | s :: rest, 0, _ => rfl
  | s :: rest, n + 1, h => by
    simpa [freeSlot, slotAvail] using
      slotAvail_freeSlot_self rest n (Nat.lt_of_succ_lt_succ h)

theorem slotAvail_freeSlot_ne : ∀ (l : List Slot) (i j : Nat),
    j ≠ i → slotAvail (freeSlot l i) j = slotAvail l j
  | [], _, _, _ => rfl
  | s :: rest, 0, 0, h => absurd rfl h
  | s :: rest, 0, j + 1, _ => rfl
  | s :: rest, i + 1, 0, _ => rfl
  | s :: rest, i + 1, j + 1, h => by
    simpa [freeSlot, slotAvail] using
      slotAvail_freeSlot_ne rest i j (fun hc => h (by omega))

theorem countFree_setSlot_busy : ∀ (l : List Slot) (i t : Nat),
    slotAvail l i = true →
    countFree (setSlot l i ⟨false, t⟩) + 1 = countFree l
  | [], i, t, h => by simp [slotAvail] at h
  | s :: rest, 0, t, h => by
    have hs : s.isAvailable = true := h
    simp [setSlot, countFree, List.countP_cons, hs]
  | s :: rest, n + 1, t, h => by
    have hr := countFree_setSlot_busy rest n t (by simpa [slotAvail] using h)
    simp only [setSlot, countFree, List.countP_cons] at *
    omega

theorem countFree_freeSlot_busy : ∀ (l : List Slot) (i : Nat),
    i < l.length → slotAvail l i = false →
    countFree (freeSlot l i) = countFree l + 1
  | [], i, h, _ => by simp at h
  | s :: rest, 0, _, hb => by
    have hs : s.isAvailable = false := hb
    simp [freeSlot, countFree, List.countP_cons, hs]
  | s :: rest, n + 1, h, hb => by
    have hr := countFree_freeSlot_busy rest n (Nat.lt_of_succ_lt_succ h)
      (by simpa [slotAvail] using hb)
    simp only [freeSlot, countFree, List.countP_cons] at *
    omega

theorem countFree_add_countBusy : ∀ l : List Slot,
    countFree l + countBusy l = l.length
  | [] => rfl
  | s :: rest => by
    have hr := countFree_add_countBusy rest
    simp only [countFree, countBusy, List.countP_cons, List.length_cons] at *
    cases hs : s.isAvailable <;> simp [hs] <;> omega

theorem countFree_replicate_free : ∀ n : Nat,
    countFree (List.replicate n ⟨true, 0⟩) = n
  | 0 => rfl
  | n + 1 => by
    have hr := countFree_replicate_free n
    simp only [countFree, List.replicate_succ, List.countP_cons] at *
    simp [hr]

-- ----------------------------------------------------------------------------
-- `findFreeSlot`: the scan of `startVisitThread`

theorem findFreeSlot_le : ∀ l : List Slot, findFreeSlot l ≤ l.length
  | [] => Nat.le_refl 0
  | s :: rest => by
    simp only [findFreeSlot]
    split
    · simp
    · simpa using findFreeSlot_le rest

theorem findFreeSlot_lt : ∀ l : List Slot,
    0 < countFree l → findFreeSlot l < l.length
  | [], h => by simp [countFree] at h
  | s :: rest, h => by
    simp only [findFreeSlot]
    split
    · simp
    · next hs =>
      have hs' : s.isAvailable = false := by
        revert hs; cases s.isAvailable <;> simp
      have : 0 < countFree rest := by
        simpa [countFree, List.countP_cons, hs'] using h
      simpa using findFreeSlot_lt rest this

theorem slotAvail_findFreeSlot : ∀ l : List Slot,
    findFreeSlot l < l.length → slotAvail l (findFreeSlot l) = true
  | [], h => by simp at h
  | s :: rest, h => by
    simp only [findFreeSlot] at *
    split
    · next hs => simpa [slotAvail] using hs
    · next hs =>
      split at h
      · next hs2 => exact absurd hs2 hs
      · simpa [slotAvail] using
          slotAvail_findFreeSlot rest (Nat.lt_of_succ_lt_succ h)

theorem findFreeSlot_minimal : ∀ (l : List Slot) (j : Nat),
    j < findFreeSlot l → slotAvail l j = false
  | [], j, h => by simp [findFreeSlot] at h
  | s :: rest, j, h => by
    simp only [findFreeSlot] at h
    split at h
    · omega
    · next hs =>
      cases j with
      | zero =>
        have : s.isAvailable = false := by
          revert hs; cases s.isAvailable <;> simp
        simpa [slotAvail] using this
      | succ j =>
        simpa [slotAvail] using
          findFreeSlot_minimal rest j (Nat.lt_of_succ_lt_succ h)

/-- Boolean form of scan-order minimality: every slot before the one the
scan returns is `Busy`. -/
def firstFreeMinimal (l : List Slot) : Bool :=
  (List.range (findFreeSlot l)).all fun j => !slotAvail l j

theorem firstFreeMinimal_true (l : List Slot) : firstFreeMinimal l = true := by
  simp only [firstFreeMinimal, List.all_eq_true, List.mem_range]
  intro j hj
  simp [findFreeSlot_minimal l j hj]

/-- **C3.** The dispatcher (`startVisitThread`, reached from the
`DT_DIR` arm of the Walker's entry loop) on a well-formed pool:

* if the available count is positive, it marks the *first* `Free` slot in
  scan order `Busy` (`firstFreeMinimal` states the scan-order minimality,
  `slotAvail … = true`/`false` the before/after state of that slot),
  decrements the available count, hands a copy of the task (path,
  readability, listing — the configuration is shared) to a newly created
  worker bound to that slot whose whole program is "run the Walker on the
  task" (release-then-exit is the machine's rule for a worker with an
  empty program), and the caller's continuation is just its remaining
  entries — it does not wait for the subtree;
* if the available count is zero, no worker is created, the pool is
  untouched, and the subtree's `visitDir` is pushed *in front of* the
  caller's remaining entries — the caller does not get back to its
  siblings until that entire subtree has finished;
* a worker whose program has emptied (its Walker call returned) releases
  exactly its own slot — count incremented, slot marked `Free` — and
  disappears. -/
theorem C3_dispatch_offload_or_inline (m : Matcher) (s : Settings)
    (p : Pool) (nt : Nat) (path name : String) (readable : Bool)
    (children es : FSList) (rest : List WItem) (st : State) (w : Worker)
    (hrec : s.isRecursive = true) (h1 : name ≠ ".") (h2 : name ≠ "..")
    (hlen : p.slots.length = p.threadCapacity)
    (hcnt : p.availableThreadCount = countFree p.slots)
    (hw : findWorker st.workers w.tid = some w) (hwp : w.prog = [])
    (hfin : st.mainPhase ≠ .finished) :
    (0 < p.availableThreadCount →
      (execItem m s p nt
          (.scanning path (.cons (.dir name readable children) es)) rest).spawned =
        some ⟨nt, findFreeSlot p.slots,
          [.visit (path ++ "/" ++ name) readable children]⟩ ∧
      (execItem m s p nt
          (.scanning path (.cons (.dir name readable children) es)) rest).prog =
        .scanning path es :: rest ∧
      (execItem m s p nt
          (.scanning path (.cons (.dir name readable children) es)) rest).pool.threadCapacity =
        p.threadCapacity ∧
      (execItem m s p nt
          (.scanning path (.cons (.dir name readable children) es)) rest).pool.slots =
        setSlot p.slots (findFreeSlot p.slots) ⟨false, nt⟩ ∧
      slotAvail p.slots (findFreeSlot p.slots) = true ∧
      slotAvail
        (execItem m s p nt
          (.scanning path (.cons (.dir name readable children) es)) rest).pool.slots
        (findFreeSlot p.slots) = false ∧
      (execItem m s p nt
          (.scanning path (.cons (.dir name readable children) es)) rest).pool.availableThreadCount + 1 =
        p.availableThreadCount ∧
      (execItem m s p nt
          (.scanning path (.cons (.dir name readable children) es)) rest).nextTid =
        nt + 1) ∧
    firstFreeMinimal p.slots = true ∧
    (p.availableThreadCount = 0 →
      (execItem m s p nt
          (.scanning path (.cons (.dir name readable children) es)) rest).spawned = none ∧
      (execItem m s p nt
          (.scanning path (.cons (.dir name readable children) es)) rest).pool = p ∧
      (execItem m s p nt
          (.scanning path (.cons (.dir name readable children) es)) rest).prog =
        .visit (path ++ "/" ++ name) readable children :: .scanning path es :: rest ∧
      (execItem m s p nt
          (.scanning path (.cons (.dir name readable children) es)) rest).nextTid = nt) ∧
    ((step m s st (.workerC w.tid)).pool.availableThreadCount =
        st.pool.availableThreadCount + 1 ∧
      (step m s st (.workerC w.tid)).pool.slots = freeSlot st.pool.slots w.slot ∧
      (step m s st (.workerC w.tid)).workers = removeWorker st.workers w.tid) := by
  refine ⟨?_, firstFreeMinimal_true p.slots, ?_, ?_⟩
  · intro hpos
    have hfree : 0 < countFree p.slots := hcnt ▸ hpos
    have hlt : findFreeSlot p.slots < p.slots.length := findFreeSlot_lt _ hfree
    have hne : ¬ findFreeSlot p.slots = p.threadCapacity := by omega
    have havail := slotAvail_findFreeSlot p.slots hlt
    have hset := slotAvail_setSlot_self p.slots (findFreeSlot p.slots)
      ⟨false, nt⟩ hlt
    simp only [execItem, hrec, h1, h2, ne_eq, not_false_eq_true, decide_True,
      decide_not, decide_False, Bool.not_false, Bool.and_self, Bool.true_and,
      Bool.and_true, if_true, ite_true, if_pos hpos, hne, ite_false, if_false,
      hset, havail]
    refine ⟨?_, ?_, ?_, ?_, ?_, ?_, ?_, ?_⟩ <;> first | trivial | omega
  · intro hz
    simp only [execItem, hrec, h1, h2, ne_eq, not_false_eq_true, decide_True,
      decide_not, decide_False, Bool.not_false, Bool.and_self, Bool.true_and,
      Bool.and_true, if_true, ite_true]
    simp only [hz, gt_iff_lt, Nat.lt_irrefl, if_false, ite_false]
    refine ⟨?_, ?_, ?_, ?_⟩ <;> trivial
  · cases w with
    | mk wtid wslot wprog =>
      cases hwp
      simp [step, if_neg hfin, hw]

/-- Witness for C3 at a concrete instance: a pool of capacity 2 whose
slot 0 is `Busy` and slot 1 `Free` (available count 1), and a state with
one finished worker (thread id 4, slot 0) ready to release. -/
theorem C3_witness :
    ((Settings.mk "c.txt" true .normal).isRecursive = true ∧
      "sub" ≠ "." ∧ "sub" ≠ ".." ∧
      (Pool.mk 2 [⟨false, 7⟩, ⟨true, 0⟩] 1).slots.length =
        (Pool.mk 2 [⟨false, 7⟩, ⟨true, 0⟩] 1).threadCapacity ∧
      (Pool.mk 2 [⟨false, 7⟩, ⟨true, 0⟩] 1).availableThreadCount =
        countFree (Pool.mk 2 [⟨false, 7⟩, ⟨true, 0⟩] 1).slots ∧
      findWorker (State.mk (Pool.mk 1 [⟨false, 4⟩] 0) [⟨4, 0, []⟩] []
          (.scanSlot 0) [] 5).workers (Worker.mk 4 0 []).tid =
        some (Worker.mk 4 0 []) ∧
      (Worker.mk 4 0 []).prog = [] ∧
      (State.mk (Pool.mk 1 [⟨false, 4⟩] 0) [⟨4, 0, []⟩] []
          (.scanSlot 0) [] 5).mainPhase ≠ .finished) ∧
    (0 < (Pool.mk 2 [⟨false, 7⟩, ⟨true, 0⟩] 1).availableThreadCount →
      (execItem mEq (Settings.mk "c.txt" true .normal)
          (Pool.mk 2 [⟨false, 7⟩, ⟨true, 0⟩] 1) 9
          (.scanning "root" (.cons (.dir "sub" true .nil) .nil)) []).spawned =
        some ⟨9, findFreeSlot (Pool.mk 2 [⟨false, 7⟩, ⟨true, 0⟩] 1).slots,
          [.visit ("root" ++ "/" ++ "sub") true .nil]⟩ ∧
      (execItem mEq (Settings.mk "c.txt" true .normal)
          (Pool.mk 2 [⟨false, 7⟩, ⟨true, 0⟩] 1) 9
          (.scanning "root" (.cons (.dir "sub" true .nil) .nil)) []).prog =
        .scanning "root" .nil :: [] ∧
      (execItem mEq (Settings.mk "c.txt" true .normal)
          (Pool.mk 2 [⟨false, 7⟩, ⟨true, 0⟩] 1) 9
          (.scanning "root" (.cons (.dir "sub" true .nil) .nil)) []).pool.threadCapacity =
        (Pool.mk 2 [⟨false, 7⟩, ⟨true, 0⟩] 1).threadCapacity ∧
      (execItem mEq (Settings.mk "c.txt" true .normal)
          (Pool.mk 2 [⟨false, 7⟩, ⟨true, 0⟩] 1) 9
          (.scanning "root" (.cons (.dir "sub" true .nil) .nil)) []).pool.slots =
        setSlot (Pool.mk 2 [⟨false, 7⟩, ⟨true, 0⟩] 1).slots
          (findFreeSlot (Pool.mk 2 [⟨false, 7⟩, ⟨true, 0⟩] 1).slots) ⟨false, 9⟩ ∧
      slotAvail (Pool.mk 2 [⟨false, 7⟩, ⟨true, 0⟩] 1).slots
        (findFreeSlot (Pool.mk 2 [⟨false, 7⟩, ⟨true, 0⟩] 1).slots) = true ∧
      slotAvail
        (execItem mEq (Settings.mk "c.txt" true .normal)
          (Pool.mk 2 [⟨false, 7⟩, ⟨true, 0⟩] 1) 9
          (.scanning "root" (.cons (.dir "sub" true .nil) .nil)) []).pool.slots
        (findFreeSlot (Pool.mk 2 [⟨false, 7⟩, ⟨true, 0⟩] 1).slots) = false ∧
      (execItem mEq (Settings.mk "c.txt" true .normal)
          (Pool.mk 2 [⟨false, 7⟩, ⟨true, 0⟩] 1) 9
          (.scanning "root" (.cons (.dir "sub" true .nil) .nil)) []).pool.availableThreadCount + 1 =
        (Pool.mk 2 [⟨false, 7⟩, ⟨true, 0⟩] 1).availableThreadCount ∧
      (execItem mEq (Settings.mk "c.txt" true .normal)
          (Pool.mk 2 [⟨false, 7⟩, ⟨true, 0⟩] 1) 9
          (.scanning "root" (.cons (.dir "sub" true .nil) .nil)) []).nextTid = 9 + 1) ∧
    firstFreeMinimal (Pool.mk 2 [⟨false, 7⟩, ⟨true, 0⟩] 1).slots = true ∧
    ((Pool.mk 2 [⟨false, 7⟩, ⟨true, 0⟩] 1).availableThreadCount = 0 →
      (execItem mEq (Settings.mk "c.txt" true .normal)
          (Pool.mk 2 [⟨false, 7⟩, ⟨true, 0⟩] 1) 9
          (.scanning "root" (.cons (.dir "sub" true .nil) .nil)) []).spawned = none ∧
      (execItem mEq (Settings.mk "c.txt" true .normal)
          (Pool.mk 2 [⟨false, 7⟩, ⟨true, 0⟩] 1) 9
          (.scanning "root" (.cons (.dir "sub" true .nil) .nil)) []).pool =
        Pool.mk 2 [⟨false, 7⟩, ⟨true, 0⟩] 1 ∧
      (execItem mEq (Settings.mk "c.txt" true .normal)
          (Pool.mk 2 [⟨false, 7⟩, ⟨true, 0⟩] 1) 9
          (.scanning "root" (.cons (.dir "sub" true .nil) .nil)) []).prog =
        .visit ("root" ++ "/" ++ "sub") true .nil :: .scanning "root" .nil :: [] ∧
      (execItem mEq (Settings.mk "c.txt" true .normal)
          (Pool.mk 2 [⟨false, 7⟩, ⟨true, 0⟩] 1) 9
          (.scanning "root" (.cons (.dir "sub" true .nil) .nil)) []).nextTid = 9) ∧
    ((step mEq (Settings.mk "c.txt" true .normal)
        (State.mk (Pool.mk 1 [⟨false, 4⟩] 0) [⟨4, 0, []⟩] [] (.scanSlot 0) [] 5)
        (.workerC (Worker.mk 4 0 []).tid)).pool.availableThreadCount =
      (State.mk (Pool.mk 1 [⟨false, 4⟩] 0) [⟨4, 0, []⟩] []
          (.scanSlot 0) [] 5).pool.availableThreadCount + 1 ∧
      (step mEq (Settings.mk "c.txt" true .normal)
        (State.mk (Pool.mk 1 [⟨false, 4⟩] 0) [⟨4, 0, []⟩] [] (.scanSlot 0) [] 5)
        (.workerC (Worker.mk 4 0 []).tid)).pool.slots =
        freeSlot (State.mk (Pool.mk 1 [⟨false, 4⟩] 0) [⟨4, 0, []⟩] []
            (.scanSlot 0) [] 5).pool.slots (Worker.mk 4 0 []).slot ∧
      (step mEq (Settings.mk "c.txt" true .normal)
        (State.mk (Pool.mk 1 [⟨false, 4⟩] 0) [⟨4, 0, []⟩] [] (.scanSlot 0) [] 5)
        (.workerC (Worker.mk 4 0 []).tid)).workers =
        removeWorker (State.mk (Pool.mk 1 [⟨false, 4⟩] 0) [⟨4, 0, []⟩] []
            (.scanSlot 0) [] 5).workers (Worker.mk 4 0 []).tid) :=
  ⟨⟨rfl, by decide, by decide, rfl, rfl, rfl, rfl, by decide⟩,
    C3_dispatch_offload_or_inline mEq (Settings.mk "c.txt" true .normal)
      (Pool.mk 2 [⟨false, 7⟩, ⟨true, 0⟩] 1) 9 "root" "sub" true .nil .nil []
      (State.mk (Pool.mk 1 [⟨false, 4⟩] 0) [⟨4, 0, []⟩] [] (.scanSlot 0) [] 5)
      (Worker.mk 4 0 []) rfl (by decide) (by decide) rfl rfl rfl rfl (by decide)⟩

-- ----------------------------------------------------------------------------
-- The pool-state invariant (claim C4)

/-- Pool well-formedness: the slot table has exactly `threadCapacity`
cells and the available count equals the number of `Free` slots. -/
def PoolWF (p : Pool) : Prop :=
  p.slots.length = p.threadCapacity ∧
    p.availableThreadCount = countFree p.slots

/-- A live worker is bound to an in-range slot that is marked `Busy`, and
its thread id is older than the next fresh one. -/
def WorkerOK (p : Pool) (nt : Nat) (w : Worker) : Prop :=
  w.slot < p.slots.length ∧ slotAvail p.slots w.slot = false ∧ w.tid < nt

/-- Two distinct live workers never share a slot or a thread id. -/
def Distinct2 (a b : Worker) : Prop := a.slot ≠ b.slot ∧ a.tid ≠ b.tid

/-- The machine invariant. -/
def Inv (st : State) : Prop :=
  PoolWF st.pool ∧ (∀ w ∈ st.workers, WorkerOK st.pool st.nextTid w) ∧
    st.workers.Pairwise Distinct2

theorem Distinct2_symm : Symmetric Distinct2 := by
  intro a b h
  exact ⟨h.1.symm, h.2.symm⟩

theorem setWorkerProg_mem {ws : List Worker} {tid : Nat} {prog : List WItem}
    {v : Worker} (h : v ∈ setWorkerProg ws tid prog) :
    ∃ u ∈ ws, u.slot = v.slot ∧ u.tid = v.tid := by
  obtain ⟨u, hu, hv⟩ := List.mem_map.mp h
  refine ⟨u, hu, ?_⟩
  by_cases ht : u.tid = tid
  · rw [if_pos ht] at hv
    rw [← hv]
    exact ⟨rfl, rfl⟩
  · rw [if_neg ht] at hv
    rw [← hv]
    exact ⟨rfl, rfl⟩

theorem setWorkerProg_pairwise {ws : List Worker} {tid : Nat}
    {prog : List WItem} (h : ws.Pairwise Distinct2) :
    (setWorkerProg ws tid prog).Pairwise Distinct2 := by
  have hpres : ∀ w : Worker,
      ((if w.tid = tid then (⟨w.tid, w.slot, prog⟩ : Worker) else w)).slot =
          w.slot ∧
        ((if w.tid = tid then (⟨w.tid, w.slot, prog⟩ : Worker) else w)).tid =
          w.tid := by
    intro w
    split <;> exact ⟨rfl, rfl⟩
  refine List.Pairwise.map _ (fun a b hab => ?_) h
  exact ⟨by rw [(hpres a).1, (hpres b).1]; exact hab.1,
    by rw [(hpres a).2, (hpres b).2]; exact hab.2⟩

theorem execItem_inv (m : Matcher) (s : Settings) (p : Pool) (nt : Nat)
    (item : WItem) (rest : List WItem) (hp : PoolWF p) :
    PoolWF (execItem m s p nt item rest).pool ∧
    (execItem m s p nt item rest).pool.slots.length = p.slots.length ∧
    nt ≤ (execItem m s p nt item rest).nextTid ∧
    (∀ j, slotAvail p.slots j = false →
      slotAvail (execItem m s p nt item rest).pool.slots j = false) ∧
    (∀ w', (execItem m s p nt item rest).spawned = some w' →
      w'.tid = nt ∧
      w'.slot < (execItem m s p nt item rest).pool.slots.length ∧
      slotAvail (execItem m s p nt item rest).pool.slots w'.slot = false ∧
      slotAvail p.slots w'.slot = true) := by
  cases item with
  | visit path readable children =>
    simp only [execItem]
    split <;>
      exact ⟨hp, rfl, Nat.le_refl _, fun j h => h, fun w' h => nomatch h⟩
  | scanning path es =>
    cases es with
    | nil =>
      exact ⟨hp, rfl, Nat.le_refl _, fun j h => h, fun w' h => nomatch h⟩
    | cons e es' =>
      cases e with
      | file name =>
        exact ⟨hp, rfl, Nat.le_refl _, fun j h => h, fun w' h => nomatch h⟩
      | link name =>
        exact ⟨hp, rfl, Nat.le_refl _, fun j h => h, fun w' h => nomatch h⟩
      | other name =>
        exact ⟨hp, rfl, Nat.le_refl _, fun j h => h, fun w' h => nomatch h⟩
      | dir name readable children =>
        simp only [execItem]
        split
        · split
          · split
            · exact ⟨hp, rfl, Nat.le_refl _, fun j h => h, fun w' h => nomatch h⟩
            · next hne =>
              have hlt : findFreeSlot p.slots < p.slots.length := by
                have h1 := findFreeSlot_le p.slots
                have h2 := hp.1
                omega
              have havail := slotAvail_findFreeSlot p.slots hlt
              have hcnt := countFree_setSlot_busy p.slots (findFreeSlot p.slots)
                nt havail
              refine ⟨⟨?_, ?_⟩, ?_, ?_, ?_, ?_⟩
              · simpa [length_setSlot] using hp.1
              · have h2 := hp.2
                simp only []
                omega
              · simp [length_setSlot]
              · exact Nat.le_succ nt
              · intro j hj
                have hne2 : j ≠ findFreeSlot p.slots := by
                  intro he
                  rw [he, havail] at hj
                  exact Bool.true_eq_false.mp hj
                simpa [slotAvail_setSlot_ne p.slots (findFreeSlot p.slots) j
                  ⟨false, nt⟩ hne2] using hj
              · intro w' hw'
                injection hw' with hh
                subst hh
                refine ⟨rfl, ?_, ?_, havail⟩
                · simpa [length_setSlot] using hlt
                · rw [slotAvail_setSlot_self p.slots (findFreeSlot p.slots)
                    ⟨false, nt⟩ hlt]
          · exact ⟨hp, rfl, Nat.le_refl _, fun j h => h, fun w' h => nomatch h⟩
        · exact ⟨hp, rfl, Nat.le_refl _, fun j h => h, fun w' h => nomatch h⟩

theorem step_inv (m : Matcher) (s : Settings) (st : State) (c : Choice)
    (h : Inv st) : Inv (step m s st c) := by
  obtain ⟨pool, workers, mainProg, mainPhase, trace, nextTid⟩ := st
  obtain ⟨hpw, hws, hpair⟩ := h
  dsimp only at hpw hws hpair
  by_cases hfin : mainPhase = MainPhase.finished
  · simp only [step, hfin, if_true, ite_true]
    exact ⟨hpw, hws, hpair⟩
  · simp only [step, if_neg hfin]
    cases c with
    | mainC =>
      cases mainPhase with
      | running =>
        cases mainProg with
        | nil => exact ⟨hpw, hws, hpair⟩
        | cons item rest =>
          dsimp only
          obtain ⟨hpw', hlen', hle', hbusy', hsp'⟩ :=
            execItem_inv m s pool nextTid item rest hpw
          refine ⟨hpw', ?_, ?_⟩
          · intro w hw
            dsimp only at hw ⊢
            rcases List.mem_append.mp hw with hmem | hmem
            · obtain ⟨h1, h2, h3⟩ := hws w hmem
              exact ⟨by omega, hbusy' w.slot h2, by omega⟩
            · cases hsp : (execItem m s pool nextTid item rest).spawned with
              | none => rw [hsp] at hmem; cases hmem
              | some w' =>
                rw [hsp] at hmem
                have : w = w' := by simpa using hmem
                subst this
                obtain ⟨ht, hs1, hs2, _⟩ := hsp' w hsp
                refine ⟨hs1, hs2, ?_⟩
                have hone : (execItem m s pool nextTid item rest).nextTid =
                    nextTid + 1 := by
                  revert hsp
                  cases item with
                  | visit path readable children =>
                    simp only [execItem]; split <;> intro hsp <;> cases hsp
                  | scanning path es =>
                    cases es with
                    | nil => intro hsp; cases hsp
                    | cons e es' =>
                      cases e with
                      | file name => intro hsp; cases hsp
                      | link name => intro hsp; cases hsp
                      | other name => intro hsp; cases hsp
                      | dir nm rd ch =>
                        simp only [execItem]
                        split
                        · split
                          · split
                            · intro hsp; cases hsp
                            · intro hsp; rfl
                          · intro hsp; cases hsp
                        · intro hsp; cases hsp
                omega
          · dsimp only
            rw [List.pairwise_append]
            refine ⟨hpair, ?_, ?_⟩
            · cases (execItem m s pool nextTid item rest).spawned <;> simp
            · intro a ha b hb
              cases hsp : (execItem m s pool nextTid item rest).spawned with
              | none => rw [hsp] at hb; cases hb
              | some w' =>
                rw [hsp] at hb
                have : b = w' := by simpa using hb
                subst this
                obtain ⟨ht, _, _, hfree⟩ := hsp' b hsp
                obtain ⟨_, hbusy, htid⟩ := hws a ha
                constructor
                · intro he
                  rw [he, hfree] at hbusy
                  exact Bool.true_eq_false.mp hbusy
                · intro he
                  rw [he, ht] at htid
                  omega
      | scanSlot k =>
        cases mainProg <;>
          (dsimp only;
            split <;> (try split) <;> (try split) <;> exact ⟨hpw, hws, hpair⟩)
      | waitFor k tid =>
        cases mainProg <;>
          (dsimp only; split <;> exact ⟨hpw, hws, hpair⟩)
      | finished => exact absurd rfl hfin
    | workerC tid =>
      dsimp only
      cases hfw : findWorker workers tid with
      | none => exact ⟨hpw, hws, hpair⟩
      | some w =>
        have hwmem : w ∈ workers := List.mem_of_find?_eq_some hfw
        obtain ⟨hw1, hw2, hw3⟩ := hws w hwmem
        obtain ⟨wtid, wslot, wprog⟩ := w
        have hteq : wtid = tid := by simpa using List.find?_some hfw
        subst hteq
        cases wprog with
        | nil =>
          dsimp only [Inv, PoolWF, WorkerOK]
          refine ⟨⟨?_, ?_⟩, ?_, ?_⟩
          · rw [length_freeSlot]
            exact hpw.1
          · have := countFree_freeSlot_busy pool.slots wslot hw1 hw2
            have h2 := hpw.2
            omega
          · intro v hv
            have hv' := List.mem_filter.mp hv
            obtain ⟨hvmem, hvt⟩ := hv'
            have hvt' : v.tid ≠ (Worker.mk wtid wslot []).tid := by
              simpa using hvt
            obtain ⟨hv1, hv2, hv3⟩ := hws v hvmem
            have hvw : v ≠ Worker.mk wtid wslot [] := fun he => hvt' (by rw [he])
            have hdist : Distinct2 v (Worker.mk wtid wslot []) :=
              (List.Pairwise.forall Distinct2_symm hpair) hvmem hwmem hvw
            refine ⟨by simpa [length_freeSlot] using hv1, ?_, hv3⟩
            have hneq : v.slot ≠ wslot := hdist.1
            simpa [slotAvail_freeSlot_ne pool.slots wslot v.slot hneq] using hv2
          · exact List.Pairwise.sublist (List.filter_sublist workers) hpair
        | cons item rest =>
          dsimp only
          obtain ⟨hpw', hlen', hle', hbusy', hsp'⟩ :=
            execItem_inv m s pool nextTid item rest hpw
          refine ⟨hpw', ?_, ?_⟩
          · intro v hv
            dsimp only at hv ⊢
            rcases List.mem_append.mp hv with hmem | hmem
            · obtain ⟨u, hu, hus, hut⟩ := setWorkerProg_mem hmem
              obtain ⟨hu1, hu2, hu3⟩ := hws u hu
              refine ⟨by omega, ?_, by omega⟩
              rw [← hus]
              exact hbusy' u.slot hu2
            · cases hsp : (execItem m s pool nextTid item rest).spawned with
              | none => rw [hsp] at hmem; cases hmem
              | some w' =>
                rw [hsp] at hmem
                have : v = w' := by simpa using hmem
                subst this
                obtain ⟨ht, hs1, hs2, _⟩ := hsp' v hsp
                refine ⟨hs1, hs2, ?_⟩
                have hone : (execItem m s pool nextTid item rest).nextTid = nextTid + 1 := by
                  revert hsp
                  cases item with
                  | visit path readable children =>
                    simp only [execItem]; split <;> intro hsp <;> cases hsp
                  | scanning path es =>
                    cases es with
                    | nil => intro hsp; cases hsp
                    | cons e es' =>
                      cases e with
                      | file name => intro hsp; cases hsp
                      | link name => intro hsp; cases hsp
                      | other name => intro hsp; cases hsp
                      | dir nm rd ch =>
                        simp only [execItem]
                        split
                        · split
                          · split
                            · intro hsp; cases hsp
                            · intro hsp; rfl
                          · intro hsp; cases hsp
                        · intro hsp; cases hsp
                omega
          · dsimp only
            rw [List.pairwise_append]
            refine ⟨setWorkerProg_pairwise hpair, ?_, ?_⟩
            · cases (execItem m s pool nextTid item rest).spawned <;> simp
            · intro a ha b hb
              cases hsp : (execItem m s pool nextTid item rest).spawned with
              | none => rw [hsp] at hb; cases hb
              | some w' =>
                rw [hsp] at hb
                have : b = w' := by simpa using hb
                subst this
                obtain ⟨ht, _, _, hfree⟩ := hsp' b hsp
                obtain ⟨u, hu, hus, hut⟩ := setWorkerProg_mem ha
                obtain ⟨_, hbusy, htid⟩ := hws u hu
                constructor
                · intro he
                  rw [hus, he, hfree] at hbusy
                  exact Bool.true_eq_false.mp hbusy
                · intro he
                  rw [hut, he, ht] at htid
                  omega

theorem run_inv (m : Matcher) (s : Settings) :
    ∀ (sched : List Choice) (st : State), Inv st → Inv (run m s st sched)
  | [], _, h => h
  | c :: cs, st, h => run_inv m s cs (step m s st c) (step_inv m s st c h)

theorem initState_inv (capacity : Nat) (rootPath : String)
    (rootReadable : Bool) (rootChildren : FSList) :
    Inv (initState capacity rootPath rootReadable rootChildren) := by
  refine ⟨⟨?_, ?_⟩, ?_, ?_⟩
  · simp [initState, mkPool]
  · simp [initState, mkPool, countFree_replicate_free]
  · intro w hw
    simp [initState] at hw
  · simp [initState]

/-- **C4.** In every state reachable from the start of a traversal (any
capacity, root tree, matcher, settings, and schedule):
`availableThreadCount` equals the number of `Free` slots (the machine's
states are exactly the program's lock-free observation points),
`availableThreadCount + busyCount = threadCapacity`, and the live workers
occupy pairwise distinct slots — no two acquisitions ever hold the same
slot concurrently. -/
theorem C4_pool_state_invariant (m : Matcher) (s : Settings)
    (capacity : Nat) (rootPath : String) (rootReadable : Bool)
    (rootChildren : FSList) (sched : List Choice) :
    (run m s (initState capacity rootPath rootReadable rootChildren)
        sched).pool.availableThreadCount =
      countFree (run m s (initState capacity rootPath rootReadable rootChildren)
        sched).pool.slots ∧
    (run m s (initState capacity rootPath rootReadable rootChildren)
        sched).pool.availableThreadCount +
      countBusy (run m s (initState capacity rootPath rootReadable rootChildren)
        sched).pool.slots =
      (run m s (initState capacity rootPath rootReadable rootChildren)
        sched).pool.threadCapacity ∧
    (run m s (initState capacity rootPath rootReadable rootChildren)
        sched).workers.Pairwise (fun a b => a.slot ≠ b.slot) := by
  obtain ⟨⟨hlen, hcnt⟩, _, hpair⟩ :=
    run_inv m s sched (initState capacity rootPath rootReadable rootChildren)
      (initState_inv capacity rootPath rootReadable rootChildren)
  refine ⟨hcnt, ?_, ?_⟩
  · have := countFree_add_countBusy
      (run m s (initState capacity rootPath rootReadable rootChildren)
        sched).pool.slots
    omega
  · exact hpair.imp fun h => h.1

-- ----------------------------------------------------------------------------
-- The join-loop race (claims C2 and C5)
--
-- Concrete run exhibiting the bug: capacity 2, pattern `c.txt`,
-- recursion on, default `NORMAL` verbosity, root listing
-- `[A/ (empty),  B/ [C/ [c.txt]]]`.  The schedule below drives the
-- program as follows: main dispatches `A` to a worker in slot 0 and `B`
-- to a worker in slot 1, finishes the root listing and enters the join
-- loop; worker 1 finishes `A` and releases slot 0; main scans slot 0
-- (Free — skips it), finds slot 1 Busy and joins worker 2; worker 2 then
-- dispatches `B/C` into the now-free slot 0 (worker 3), finishes `B` and
-- exits; main's join returns, the loop moves past the last slot and
-- `main` runs `destroyThreadState` and `exit` — killing worker 3, which
-- never visited `C`.

/-- Settings of the exhibit: pattern `c.txt`, recursive, `NORMAL`. -/
def cfgEx : Settings := ⟨"c.txt", true, .normal⟩

/-- Root listing of the exhibit. -/
def exChildren : FSList :=
  .cons (.dir "A" true .nil)
    (.cons (.dir "B" true
      (.cons (.dir "C" true (.cons (.file "c.txt") .nil)) .nil)) .nil)

/-- Start state of the exhibit: capacity 2. -/
def exInit : State := initState 2 "root" true exChildren

/-- The schedule described above. -/
def exSched : List Choice :=
  [.mainC, .mainC, .mainC, .mainC, .mainC,
   .workerC 1, .workerC 1, .workerC 1,
   .mainC, .mainC,
   .workerC 2, .workerC 2, .workerC 2, .workerC 2,
   .mainC, .mainC]

/-- The final state of the exhibit. -/
def exFinal : State := run mEq cfgEx exInit exSched

/-- **C5 (code bug exhibit).** After `traverse` returns (the join loop is
over, `main` has destroyed the pool state and exited — `mainPhase` is
`finished`), one slot is still Busy and one offloaded worker is still
live: the join pass scanned slot 0 while it was Free, and worker 2 later
re-acquired slot 0 for the `B/C` subtree during `main`'s join on slot 1,
so that worker is never joined. -/
theorem C5_busy_slot_survives_join :
    exFinal.mainPhase = .finished ∧
    countBusy exFinal.pool.slots = 1 ∧
    exFinal.workers.length = 1 := by
  refine ⟨rfl, rfl, rfl⟩

/-- **C2 (code bug exhibit).** Under the same run, the concurrent
traversal emits no match at all (the worker owning `root/B/C` is killed
by `main`'s exit before it runs), while the capacity-0 inline traversal
of the same tree with the same pattern emits `root/B/C/c.txt`: the set of
emitted matches is *not* invariant across pool capacities — a match is
lost. -/
theorem C2_match_lost_under_concurrency :
    outLines exFinal.trace = [] ∧
    outLines (visitDirSeq mEq cfgEx "root" true exChildren).1 =
      ["root/B/C/c.txt"] := by
  refine ⟨rfl, rfl⟩

end MyFind


